import Mathlib

/-!
# Query instance lifecycle and drop-space processing

A shallow embedding of `QueryInstance.cpp` (graph service) and
`DropSpaceProcessor.cpp` (meta service).  Stateful code is written as explicit
state passing over the records below; the collaborators that the two files
call but do not define (parser, validator, optimizer, scheduler, clock,
key layout, key-value store) are inputs.
-/

namespace nebula

/-! ## Status and client error codes -/

/-- Internal status codes: the case labels of the switch in `QueryInstance::onError`. -/
inductive Code
  | kOk
  | kSyntaxError
  | kStatementEmpty
  | kSemanticError
  | kPermissionError
  | kLeaderChanged
  | kBalanced
  | kEdgeNotFound
  | kError
  | kHostNotFound
  | kIndexNotFound
  | kInserted
  | kKeyNotFound
  | kPartialSuccess
  | kNoSuchFile
  | kNotSupported
  | kPartNotFound
  | kSpaceNotFound
  | kGroupNotFound
  | kZoneNotFound
  | kTagNotFound
  | kUserNotFound
  | kListenerNotFound
  | kSessionNotFound
  deriving DecidableEq, Repr

/-- A status: a code and a message. -/
structure Status where
  code : Code
  msg : String
  deriving DecidableEq, Repr

namespace Status

/-- The method `Status::ok()`. -/
def ok (s : Status) : Bool := decide (s.code = Code.kOk)

/-- The method `Status::OK()`. -/
def OK : Status := ⟨Code.kOk, ""⟩

/-- The call `Status::Error(fmt, ...)`: a status of code `kError` carrying the formatted message. -/
def Error (msg : String) : Status := ⟨Code.kError, msg⟩

end Status

/-- The type `StatusOr<T>`: a value, or a status that is not OK. -/
inductive StatusOr (α : Type)
  | value (a : α)
  | status (s : Status) (notOk : s.ok = false)

/-- The method `StatusOr::ok()`. -/
def StatusOr.ok {α : Type} : StatusOr α → Bool
  | .value _ => true
  | .status _ _ => false

/-- Client error codes written by `QueryInstance.cpp`. -/
inductive ErrorCode
  | SUCCEEDED
  | E_SYNTAX_ERROR
  | E_STATEMENT_EMPTY
  | E_SEMANTIC_ERROR
  | E_BAD_PERMISSION
  | E_EXECUTION_ERROR
  deriving DecidableEq, Repr

/-! ## Values, variable store, plan, response -/

/-- A result table: column names and rows. -/
structure DataSet where
  colNames : List String
  rows : List (List Int)
  deriving DecidableEq, Repr

/-- A value of the variable store, as far as `fillRespData` tells values apart. -/
inductive Value
  | empty
  | int (i : Int)
  | str (s : String)
  | dataSet (ds : DataSet)
  deriving DecidableEq, Repr

/-- The method `Value::isDataSet()`. -/
def Value.isDataSet : Value → Bool
  | .dataSet _ => true
  | _ => false

/-- Modelled from the spec: the variable store of the execution context
(`ExecutionContext` is not among the sources), a mapping from variable name to value. -/
abbrev ExecutionContext := List (String × Value)

/-- Modelled from the spec: `exists(name)` of the variable store. -/
def ExecutionContext.exist (ectx : ExecutionContext) (name : String) : Bool :=
  (ectx.lookup name).isSome

/-- Modelled from the spec: `moveValue(name)` of the variable store, a destructive take
that leaves a tombstone (the empty value) under the name. -/
def ExecutionContext.moveValue (ectx : ExecutionContext) (name : String) :
    Value × ExecutionContext :=
  match ectx.lookup name with
  | some v => (v, ectx.map fun p => if p.1 = name then (p.1, Value.empty) else p)
  | none => (Value.empty, ectx)

/-- A plan node, as far as the query instance looks at it. -/
structure PlanNode where
  outputVar : String
  deriving DecidableEq, Repr

/-- The execution plan of a query context. -/
structure ExecutionPlan where
  root : Option PlanNode
  optimizeTimeInUs : Nat
  deriving DecidableEq, Repr

/-- The EXPLAIN tree; its content is whatever `ExecutionPlan::describe` writes. -/
structure PlanDescription where
  text : String
  deriving DecidableEq, Repr

/-- The parsed sentence, as far as the query instance looks at it. -/
inductive Sentence
  | sequential (numSentences : Nat)
  | explain (isProfile : Bool)
  | other
  deriving DecidableEq, Repr

/-- Sentence kinds compared by the query instance. -/
inductive Sentence.Kind
  | kSequential
  | kExplain
  | kOther
  deriving DecidableEq, Repr

/-- The method `Sentence::kind()`. -/
def Sentence.kind : Sentence → Sentence.Kind
  | .sequential _ => .kSequential
  | .explain _ => .kExplain
  | .other => .kOther

/-- The response slot `ExecutionResponse`. -/
structure ExecutionResponse where
  errorCode : ErrorCode
  errorMsg : Option String
  spaceName : Option String
  latencyInUs : Nat
  data : Option DataSet
  planDesc : Option PlanDescription
  deriving DecidableEq, Repr

/-! ## Metrics -/

/-- The metrics of `GraphStats` used by the query instance. -/
inductive Metric
  | kNumSentences
  | kOptimizerLatencyUs
  | kQueryLatencyUs
  | kNumSlowQueries
  | kSlowQueryLatencyUs
  | kNumQueryErrors
  | kNumQueryErrorsLeaderChanges
  deriving DecidableEq, Repr

/-- A counter or histogram id: the metric, and the value of its `space` label if it has one. -/
structure CounterId where
  metric : Metric
  space : Option String
  deriving DecidableEq, Repr

/-- One call of `StatsManager::addValue`. -/
structure StatRecord where
  id : CounterId
  value : Nat
  deriving DecidableEq, Repr

namespace StatsManager

/-- Modelled from the spec: the value `addValue` records when the call passes none
(`StatsManager.h` is not among the sources); the counters of the spec step by 1. -/
def defaultValue : Nat := 1

/-- The method `StatsManager::counterWithLabels`, called with the one label `space`. -/
def counterWithLabels (m : Metric) (spaceName : String) : CounterId := ⟨m, some spaceName⟩

/-- The method `StatsManager::histoWithLabels`, called with the one label `space`. -/
def histoWithLabels (m : Metric) (spaceName : String) : CounterId := ⟨m, some spaceName⟩

/-- The call `StatsManager::addValue(id, value)`: the recording is appended to the log. -/
def addValue (id : CounterId) (value : Nat) (stats : List StatRecord) : List StatRecord :=
  stats ++ [⟨id, value⟩]

end StatsManager

/-- The unlabeled id of a metric. -/
def Metric.id (m : Metric) : CounterId := ⟨m, none⟩

/-- The sum of the values recorded under an id: the reading of a counter. -/
def counterValue (id : CounterId) (stats : List StatRecord) : Nat :=
  ((stats.filter fun r => decide (r.id = id)).map StatRecord.value).sum

/-- The values recorded under an id, in order: the samples of a histogram. -/
def recordedValues (id : CounterId) (stats : List StatRecord) : List Nat :=
  (stats.filter fun r => decide (r.id = id)).map StatRecord.value

/-! ## The query instance -/

/-- How the future returned by `scheduler_->schedule()` completes: with a status, with a
thrown `ExecutionError` carrying a status, or with another thrown `std::exception`. -/
inductive ScheduleOutcome
  | value (s : Status)
  | executionError (status : Status)
  | stdException (what : String)
  deriving DecidableEq, Repr

/-- Calls that the query instance makes on its collaborators and on itself, logged in order. -/
inductive Call
  | addQuery
  | deleteQuery
  | finish
  | schedule
  | describe
  | onFinish
  | onError
  | deleteThis
  deriving DecidableEq, Repr

/-- What the collaborators of one query give back: the gflags, the session's space, the
results of parser, validator, optimizer and scheduler, and the clock readings. -/
structure Env where
  /-- The flag `FLAGS_enable_space_level_metrics`. -/
  enable_space_level_metrics : Bool
  /-- The flag `FLAGS_slow_query_threshold_us`, a signed 64-bit value. -/
  slow_query_threshold_us : Int
  /-- The name `rctx->session()->space().name`. -/
  spaceName : String
  /-- Result of `GQLParser(qctx()).parse(rctx->query())`. -/
  parse : StatusOr Sentence
  /-- Result of `Validator::validate(sentence_.get(), qctx())`. -/
  validate : Status
  /-- Result of `optimizer_->findBestPlan(qctx_.get())`. -/
  findBestPlan : StatusOr PlanNode
  /-- Microseconds that the scoped timer of `findBestPlan` measures. -/
  optimizeElapsedUs : Nat
  /-- The method `ExecutionPlan::describe`. -/
  describe : ExecutionPlan → PlanDescription
  /-- A run of the scheduler: the variable store its executors leave, and its outcome. -/
  schedule : ExecutionContext → ExecutionContext × ScheduleOutcome
  /-- The reading `rctx->duration().elapsedInUSec()` taken by the terminal handler. -/
  elapsedInUSec : Nat
  /-- The method `Status::toString()`. -/
  toString : Status → String

/-- The query instance with what it owns and writes: the response slot, the variable store,
the plan, the parsed sentence, the log of recorded metrics and the log of calls. -/
structure QueryInstance where
  resp : ExecutionResponse
  ectx : ExecutionContext
  plan : ExecutionPlan
  sentence_ : Option Sentence
  stats : List StatRecord
  calls : List Call
  deriving DecidableEq, Repr

namespace QueryInstance

/-- The constructor: takes the query context and adds the query to the session. -/
def create (resp : ExecutionResponse) (ectx : ExecutionContext) (plan : ExecutionPlan)
    (stats : List StatRecord) : QueryInstance :=
  { resp := resp, ectx := ectx, plan := plan, sentence_ := none, stats := stats,
    calls := [Call.addQuery] }

/-- The guard `FLAGS_enable_space_level_metrics && spaceName != ""` of the labeled metrics. -/
def spaceLevel (env : Env) (spaceName : String) : Bool :=
  env.enable_space_level_metrics && spaceName != ""

/-- The conversion `static_cast<uint64_t>` of a signed 64-bit value. -/
def toUInt64 (x : Int) : Nat := (x % 2 ^ 64).toNat

/-- The method `QueryInstance::addSlowQueryStats`. -/
def addSlowQueryStats (env : Env) (latency : Nat) (spaceName : String)
    (stats : List StatRecord) : List StatRecord :=
  let stats := StatsManager.addValue Metric.kQueryLatencyUs.id latency stats
  let stats :=
    if spaceLevel env spaceName then
      StatsManager.addValue (StatsManager.histoWithLabels Metric.kQueryLatencyUs spaceName)
        latency stats
    else stats
  if latency > toUInt64 env.slow_query_threshold_us then
    let stats :=
      StatsManager.addValue Metric.kNumSlowQueries.id StatsManager.defaultValue stats
    let stats := StatsManager.addValue Metric.kSlowQueryLatencyUs.id latency stats
    if spaceLevel env spaceName then
      let stats :=
        StatsManager.addValue (StatsManager.counterWithLabels Metric.kNumSlowQueries spaceName)
          StatsManager.defaultValue stats
      StatsManager.addValue (StatsManager.histoWithLabels Metric.kSlowQueryLatencyUs spaceName)
        latency stats
    else stats
  else stats

/-- The method `QueryInstance::findBestPlan`: the scoped timer writes the elapsed time into
the plan on every exit; on success the root is installed. -/
def findBestPlan (env : Env) (q : QueryInstance) : Status × QueryInstance :=
  match env.findBestPlan with
  | .status s _ =>
    (s, { q with plan := { q.plan with optimizeTimeInUs := env.optimizeElapsedUs } })
  | .value root =>
    (Status.OK, { q with plan := ⟨some root, env.optimizeElapsedUs⟩ })

/-- The method `QueryInstance::validateAndOptimize`. -/
def validateAndOptimize (env : Env) (q : QueryInstance) : Status × QueryInstance :=
  let spaceName := env.spaceName
  match env.parse with
  | .status s _ => (s, q)
  | .value sentence =>
    let q := { q with sentence_ := some sentence }
    let q :=
      match sentence with
      | .sequential num =>
        let q := { q with stats := StatsManager.addValue Metric.kNumSentences.id num q.stats }
        if spaceLevel env spaceName then
          let labeled := StatsManager.counterWithLabels Metric.kNumSentences spaceName
          { q with stats := StatsManager.addValue labeled num q.stats }
        else q
      | _ =>
        let unlabeled := Metric.kNumSentences.id
        let q := { q with stats := StatsManager.addValue unlabeled StatsManager.defaultValue q.stats }
        if spaceLevel env spaceName then
          let labeled := StatsManager.counterWithLabels Metric.kNumSentences spaceName
          { q with stats := StatsManager.addValue labeled StatsManager.defaultValue q.stats }
        else q
    if !env.validate.ok then (env.validate, q)
    else
      let (status, q) := findBestPlan env q
      if !status.ok then (status, q)
      else
        let unlabeled := Metric.kOptimizerLatencyUs.id
        let q := { q with stats := StatsManager.addValue unlabeled q.plan.optimizeTimeInUs q.stats }
        let q :=
          if spaceLevel env spaceName then
            let labeled := StatsManager.histoWithLabels Metric.kOptimizerLatencyUs spaceName
            { q with stats := StatsManager.addValue labeled StatsManager.defaultValue q.stats }
          else q
        (Status.OK, q)

/-- The method `QueryInstance::explainOrContinue`; `none` is the dereference of a null
`sentence_`. -/
def explainOrContinue (env : Env) (q : QueryInstance) : Option (Bool × QueryInstance) :=
  match q.sentence_ with
  | none => none
  | some (.explain isProfile) =>
    let resp := { q.resp with planDesc := some (env.describe q.plan) }
    some (isProfile, { q with resp := resp, calls := q.calls ++ [Call.describe] })
  | some _ => some (true, q)

/-- The method `QueryInstance::fillRespData`, on the response of the query; `none` is the
dereference of a null plan root. -/
def fillRespData (q : QueryInstance) : Option QueryInstance :=
  match q.plan.root with
  | none => none
  | some root =>
    let name := root.outputVar
    if !q.ectx.exist name then some q
    else
      let (value, ectx) := q.ectx.moveValue name
      let q := { q with ectx := ectx }
      match value with
      | .dataSet result =>
        if !result.colNames.isEmpty then
          some { q with resp := { q.resp with data := some result } }
        else
          let resp := { q.resp with errorCode := ErrorCode.E_EXECUTION_ERROR }
          let resp := { resp with errorMsg := some "Internal error: empty column name list" }
          some { q with resp := resp }
      | _ => some q

/-- The method `QueryInstance::onFinish`. -/
def onFinish (env : Env) (q : QueryInstance) : Option QueryInstance :=
  let q := { q with calls := q.calls ++ [Call.onFinish] }
  let spaceName := env.spaceName
  let q := { q with resp := { q.resp with spaceName := some spaceName } }
  match fillRespData q with
  | none => none
  | some q =>
    let latency := env.elapsedInUSec
    let q := { q with resp := { q.resp with latencyInUs := latency } }
    let q := { q with stats := addSlowQueryStats env latency spaceName q.stats }
    some { q with calls := q.calls ++ [Call.finish, Call.deleteQuery, Call.deleteThis] }

/-- The switch of `QueryInstance::onError` on the status code: the client code it assigns. -/
def errorCodeOf : Code → ErrorCode
  | .kOk => ErrorCode.SUCCEEDED
  | .kSyntaxError => ErrorCode.E_SYNTAX_ERROR
  | .kStatementEmpty => ErrorCode.E_STATEMENT_EMPTY
  | .kSemanticError => ErrorCode.E_SEMANTIC_ERROR
  | .kPermissionError => ErrorCode.E_BAD_PERMISSION
  | .kLeaderChanged => ErrorCode.E_EXECUTION_ERROR
  | .kBalanced => ErrorCode.E_EXECUTION_ERROR
  | .kEdgeNotFound => ErrorCode.E_EXECUTION_ERROR
  | .kError => ErrorCode.E_EXECUTION_ERROR
  | .kHostNotFound => ErrorCode.E_EXECUTION_ERROR
  | .kIndexNotFound => ErrorCode.E_EXECUTION_ERROR
  | .kInserted => ErrorCode.E_EXECUTION_ERROR
  | .kKeyNotFound => ErrorCode.E_EXECUTION_ERROR
  | .kPartialSuccess => ErrorCode.E_EXECUTION_ERROR
  | .kNoSuchFile => ErrorCode.E_EXECUTION_ERROR
  | .kNotSupported => ErrorCode.E_EXECUTION_ERROR
  | .kPartNotFound => ErrorCode.E_EXECUTION_ERROR
  | .kSpaceNotFound => ErrorCode.E_EXECUTION_ERROR
  | .kGroupNotFound => ErrorCode.E_EXECUTION_ERROR
  | .kZoneNotFound => ErrorCode.E_EXECUTION_ERROR
  | .kTagNotFound => ErrorCode.E_EXECUTION_ERROR
  | .kUserNotFound => ErrorCode.E_EXECUTION_ERROR
  | .kListenerNotFound => ErrorCode.E_EXECUTION_ERROR
  | .kSessionNotFound => ErrorCode.E_EXECUTION_ERROR

/-- The metrics that the `kLeaderChanged` case of the switch records before it falls through. -/
def leaderChangedStats (env : Env) (spaceName : String) (code : Code)
    (stats : List StatRecord) : List StatRecord :=
  match code with
  | .kLeaderChanged =>
    let stats := StatsManager.addValue Metric.kNumQueryErrorsLeaderChanges.id
      StatsManager.defaultValue stats
    if spaceLevel env spaceName then
      StatsManager.addValue
        (StatsManager.counterWithLabels Metric.kNumQueryErrorsLeaderChanges spaceName)
        StatsManager.defaultValue stats
    else stats
  | _ => stats

/-- The method `QueryInstance::onError`. -/
def onError (env : Env) (status : Status) (q : QueryInstance) : QueryInstance :=
  let q := { q with calls := q.calls ++ [Call.onError] }
  let spaceName := env.spaceName
  let q := { q with stats := leaderChangedStats env spaceName status.code q.stats }
  let q := { q with resp := { q.resp with errorCode := errorCodeOf status.code } }
  let q := { q with resp := { q.resp with spaceName := some spaceName } }
  let q := { q with resp := { q.resp with errorMsg := some (env.toString status) } }
  let latency := env.elapsedInUSec
  let q := { q with resp := { q.resp with latencyInUs := latency } }
  let unlabeled := Metric.kNumQueryErrors.id
  let q := { q with stats := StatsManager.addValue unlabeled StatsManager.defaultValue q.stats }
  let q :=
    if spaceLevel env spaceName then
      let labeled := StatsManager.counterWithLabels Metric.kNumQueryErrors spaceName
      { q with stats := StatsManager.addValue labeled StatsManager.defaultValue q.stats }
    else q
  let q := { q with stats := addSlowQueryStats env latency spaceName q.stats }
  { q with calls := q.calls ++ [Call.deleteQuery, Call.finish, Call.deleteThis] }

/-- The method `QueryInstance::execute`, with the continuations attached to the future of
the scheduler run on its outcome. -/
def execute (env : Env) (q : QueryInstance) : Option QueryInstance :=
  let (status, q) := validateAndOptimize env q
  if !status.ok then some (onError env status q)
  else
    match explainOrContinue env q with
    | none => none
    | some (false, q) => onFinish env q
    | some (true, q) =>
      let q := { q with calls := q.calls ++ [Call.schedule] }
      let (ectx, outcome) := env.schedule q.ectx
      let q := { q with ectx := ectx }
      match outcome with
      | .value s => if s.ok then onFinish env q else some (onError env s q)
      | .executionError status => some (onError env status q)
      | .stdException what => some (onError env (Status.Error what) q)

end QueryInstance

/-! ## The drop-space processor of the meta service -/

/-- Keys and values of the meta key-value store: byte strings. -/
abbrev Bytes := List Char

/-- The identifier of a graph space. -/
abbrev GraphSpaceID := Nat

namespace cpp2

/-- Error codes of the meta service, as far as `DropSpaceProcessor::process` tells them
apart; `other` stands for every further code a collaborator may return. -/
inductive ErrorCode
  | SUCCEEDED
  | E_SPACE_NOT_FOUND
  | other (n : Nat)
  deriving DecidableEq, Repr

/-- The request `DropSpaceReq`. -/
structure DropSpaceReq where
  space_name : String
  if_exists : Bool
  deriving DecidableEq, Repr

end cpp2

/-- The key layout `MetaKeyUtils`, which is not among the sources: the functions of it that
`DropSpaceProcessor::process` calls.  `fulltextIndexSpaceId` is
`parsefulltextIndex(val).get_space_id()`. -/
structure MetaKeyUtils where
  partPrefix : GraphSpaceID → Bytes
  indexSpaceKey : String → Bytes
  spaceKey : GraphSpaceID → Bytes
  roleSpacePrefix : GraphSpaceID → Bytes
  listenerPrefix : GraphSpaceID → Bytes
  statsKey : GraphSpaceID → Bytes
  fulltextIndexPrefix : Bytes
  fulltextIndexSpaceId : Bytes → GraphSpaceID
  localIdKey : GraphSpaceID → Bytes

/-- The meta key-value store as the processor sees it: its key-value pairs in key order, the
error (if any) with which a scan of a given key range fails, and the result of
`getSpaceId`. -/
structure MetaStore where
  data : List (Bytes × Bytes)
  scanError : Bytes → Option cpp2.ErrorCode
  getSpaceId : String → Except cpp2.ErrorCode GraphSpaceID

/-- The method `BaseProcessor::doPrefix`: the pairs whose key starts with the given bytes,
or the error of the scan. -/
def MetaStore.doPrefix (kv : MetaStore) (key : Bytes) :
    Except cpp2.ErrorCode (List (Bytes × Bytes)) :=
  match kv.scanError key with
  | some code => Except.error code
  | none => Except.ok (kv.data.filter fun p => key.isPrefixOf p.1)

/-- What `DropSpaceProcessor::process` ends with: `handleErrorCode(code); onFinished()`, or
`doSyncMultiRemoveAndUpdate(deleteKeys)`. -/
inductive DropSpaceResult
  | finished (code : cpp2.ErrorCode)
  | multiRemove (deleteKeys : List Bytes)
  deriving DecidableEq, Repr

namespace DropSpaceProcessor

/-- The method `DropSpaceProcessor::process`. -/
def process (keys : MetaKeyUtils) (kv : MetaStore) (req : cpp2.DropSpaceReq) :
    DropSpaceResult :=
  let spaceName := req.space_name
  match kv.getSpaceId spaceName with
  | .error retCode =>
    let retCode :=
      if retCode = cpp2.ErrorCode.E_SPACE_NOT_FOUND then
        if req.if_exists then cpp2.ErrorCode.SUCCEEDED else retCode
      else retCode
    DropSpaceResult.finished retCode
  | .ok spaceId =>
    let deleteKeys : List Bytes := []
    -- 1. Delete related part meta data.
    match kv.doPrefix (keys.partPrefix spaceId) with
    | .error retCode => DropSpaceResult.finished retCode
    | .ok iter =>
      let deleteKeys := deleteKeys ++ iter.map Prod.fst
      -- 2. Delete this space data
      let deleteKeys := deleteKeys ++ [keys.indexSpaceKey spaceName]
      let deleteKeys := deleteKeys ++ [keys.spaceKey spaceId]
      -- 3. Delete related role data.
      let rolePrefix := keys.roleSpacePrefix spaceId
      match kv.doPrefix rolePrefix with
      | .error retCode => DropSpaceResult.finished retCode
      | .ok roleIter =>
        let deleteKeys := deleteKeys ++ roleIter.map Prod.fst
        -- 4. Delete listener meta data
        let _lstPrefix := keys.listenerPrefix spaceId
        match kv.doPrefix rolePrefix with
        | .error retCode => DropSpaceResult.finished retCode
        | .ok lstIter =>
          let deleteKeys := deleteKeys ++ lstIter.map Prod.fst
          -- 5. Delete related stats data
          let deleteKeys := deleteKeys ++ [keys.statsKey spaceId]
          -- 6. Delete related fulltext index meta data
          match kv.doPrefix keys.fulltextIndexPrefix with
          | .error retCode => DropSpaceResult.finished retCode
          | .ok ftIter =>
            let ftKeys := ftIter.filter fun p => decide (keys.fulltextIndexSpaceId p.2 = spaceId)
            let deleteKeys := deleteKeys ++ ftKeys.map Prod.fst
            -- 7. Delete local_id meta data
            let deleteKeys := deleteKeys ++ [keys.localIdKey spaceId]
            DropSpaceResult.multiRemove deleteKeys

end DropSpaceProcessor

/-- The four bytes of a space id, lowest first. -/
def spaceIdBytes (spaceId : GraphSpaceID) : Bytes :=
  [Char.ofNat (spaceId % 256), Char.ofNat (spaceId / 256 % 256),
   Char.ofNat (spaceId / 65536 % 256), Char.ofNat (spaceId / 16777216 % 256)]

/-- A key layout on which the processor is evaluated: each table has its own name, and the
keys of a space start with the table name followed by the bytes of the space id. -/
def tableKeys : MetaKeyUtils where
  partPrefix := fun spaceId => "__parts__".toList ++ spaceIdBytes spaceId
  indexSpaceKey := fun name => "__index__".toList ++ name.toList
  spaceKey := fun spaceId => "__spaces__".toList ++ spaceIdBytes spaceId
  roleSpacePrefix := fun spaceId => "__roles__".toList ++ spaceIdBytes spaceId
  listenerPrefix := fun spaceId => "__listener__".toList ++ spaceIdBytes spaceId
  statsKey := fun spaceId => "__statis__".toList ++ spaceIdBytes spaceId
  fulltextIndexPrefix := "__ft_index__".toList
  fulltextIndexSpaceId := fun val => (val.headD (Char.ofNat 0)).toNat
  localIdKey := fun spaceId => "__local_id__".toList ++ spaceIdBytes spaceId

/-- A store holding the space `s` with id 1, one part, one role and one listener of it; every
scan succeeds. -/
def storeWithListener : MetaStore where
  data :=
    [ ("__index__s".toList, spaceIdBytes 1),
      (tableKeys.listenerPrefix 1 ++ "elasticsearch".toList, "host".toList),
      (tableKeys.partPrefix 1 ++ spaceIdBytes 1, "peers".toList),
      (tableKeys.roleSpacePrefix 1 ++ "user".toList, "ADMIN".toList),
      (tableKeys.spaceKey 1, "properties".toList) ]
  scanError := fun _ => none
  getSpaceId := fun name =>
    if name = "s" then Except.ok 1 else Except.error cpp2.ErrorCode.E_SPACE_NOT_FOUND

/-! ## Inputs on which the code is evaluated -/

/-- A response slot as a new request context holds it. -/
def freshResp : ExecutionResponse :=
  { errorCode := ErrorCode.SUCCEEDED, errorMsg := none, spaceName := none, latencyInUs := 0,
    data := none, planDesc := none }

/-- A query `YIELD 1 AS a` in space `s`: it parses, validates and optimizes, the optimizer
takes 250 microseconds, the scheduler completes with OK and leaves the dataset of the root
in the variable store, the whole request takes 900 microseconds; space-level metrics are on
and the slow-query threshold is 500 microseconds. -/
def yieldEnv : Env where
  enable_space_level_metrics := true
  slow_query_threshold_us := 500
  spaceName := "s"
  parse := StatusOr.value Sentence.other
  validate := Status.OK
  findBestPlan := StatusOr.value ⟨"v"⟩
  optimizeElapsedUs := 250
  describe := fun plan => ⟨(plan.root.map PlanNode.outputVar).getD ""⟩
  schedule := fun _ => ([("v", Value.dataSet ⟨["a"], [[1]]⟩)], ScheduleOutcome.value Status.OK)
  elapsedInUSec := 900
  toString := fun s => if s.ok then "OK" else s.msg

/-- The instance that the constructor builds for a new request. -/
def freshInstance : QueryInstance :=
  QueryInstance.create freshResp [] ⟨none, 0⟩ []

/-- The instance of `yieldEnv` when the scheduler has completed: the plan is installed and
the root variable `v` holds the dataset. -/
def scheduledInstance : QueryInstance :=
  { freshInstance with
      plan := ⟨some ⟨"v"⟩, 250⟩,
      sentence_ := some Sentence.other,
      ectx := [("v", Value.dataSet ⟨["a"], [[1]]⟩)],
      calls := [Call.addQuery, Call.schedule] }

/-- An instance whose scheduler has completed without any executor publishing the root
variable `v`: the variable store is empty. -/
def absentInstance : QueryInstance :=
  { freshInstance with
      plan := ⟨some ⟨"v"⟩, 250⟩,
      sentence_ := some Sentence.other,
      ectx := [],
      calls := [Call.addQuery, Call.schedule] }

/-- The query `EXPLAIN YIELD 1 AS a`: the query of `yieldEnv` wrapped in an EXPLAIN without
PROFILE, with a scheduler that would fail with LeaderChanged if it were run. -/
def explainEnv : Env :=
  { yieldEnv with
      parse := StatusOr.value (Sentence.explain false),
      schedule := fun ectx => (ectx, ScheduleOutcome.value ⟨Code.kLeaderChanged, "leader"⟩) }

/-- The query `EXPLAIN PROFILE YIELD 1 AS a`: the query of `yieldEnv` wrapped in an EXPLAIN
with PROFILE. -/
def profileEnv : Env :=
  { yieldEnv with parse := StatusOr.value (Sentence.explain true) }

/-- The key of the listener of space 1 in `storeWithListener`. -/
def listenerKey : Bytes := tableKeys.listenerPrefix 1 ++ "elasticsearch".toList

/-- The key of the role of space 1 in `storeWithListener`. -/
def roleKey : Bytes := tableKeys.roleSpacePrefix 1 ++ "user".toList

/-! ## Lemmas on the metric log -/

namespace QueryInstance

theorem counterValue_addValue (id id' : CounterId) (v : Nat) (stats : List StatRecord) :
    counterValue id (StatsManager.addValue id' v stats) =
      counterValue id stats + (if id' = id then v else 0) := by
  unfold counterValue StatsManager.addValue
  by_cases h : id' = id <;> simp [List.filter_append, h]

theorem recordedValues_addValue (id id' : CounterId) (v : Nat) (stats : List StatRecord) :
    recordedValues id (StatsManager.addValue id' v stats) =
      recordedValues id stats ++ (if id' = id then [v] else []) := by
  unfold recordedValues StatsManager.addValue
  by_cases h : id' = id <;> simp [List.filter_append, h]

/-! ## Error mapping and error counters -/

theorem onError_errorCode (env : Env) (status : Status) (q : QueryInstance) :
    (onError env status q).resp.errorCode = errorCodeOf status.code := by
  unfold onError
  by_cases h : spaceLevel env env.spaceName <;> simp [h]

theorem onError_errorMsg (env : Env) (status : Status) (q : QueryInstance) :
    (onError env status q).resp.errorMsg = some (env.toString status) := by
  unfold onError
  by_cases h : spaceLevel env env.spaceName <;> simp [h]

theorem onError_calls (env : Env) (status : Status) (q : QueryInstance) :
    (onError env status q).calls =
      q.calls ++ [Call.onError, Call.deleteQuery, Call.finish, Call.deleteThis] := by
  unfold onError
  by_cases h : spaceLevel env env.spaceName <;> simp [h]

theorem onError_stats (env : Env) (status : Status) (q : QueryInstance) :
    (onError env status q).stats =
      addSlowQueryStats env env.elapsedInUSec env.spaceName
        (if spaceLevel env env.spaceName then
          StatsManager.addValue
            (StatsManager.counterWithLabels Metric.kNumQueryErrors env.spaceName)
            StatsManager.defaultValue
            (StatsManager.addValue Metric.kNumQueryErrors.id StatsManager.defaultValue
              (leaderChangedStats env env.spaceName status.code q.stats))
        else
          StatsManager.addValue Metric.kNumQueryErrors.id StatsManager.defaultValue
            (leaderChangedStats env env.spaceName status.code q.stats)) := by
  unfold onError
  by_cases h : spaceLevel env env.spaceName <;> simp [h]

/-- C1: for every internal status code, `onError` sets the response `errorCode` to the
client code of the table: OK to SUCCEEDED, SyntaxError to E_SYNTAX_ERROR, StatementEmpty to
E_STATEMENT_EMPTY, SemanticError to E_SEMANTIC_ERROR, PermissionError to E_BAD_PERMISSION,
LeaderChanged and each of the 18 remaining codes to E_EXECUTION_ERROR; the 24 codes of the
table are all the codes, and the code written does not depend on the prior state. -/
theorem onError_maps_every_status_code (env : Env) (msg : String) (q : QueryInstance) :
    (onError env ⟨Code.kOk, msg⟩ q).resp.errorCode = ErrorCode.SUCCEEDED ∧
    (onError env ⟨Code.kSyntaxError, msg⟩ q).resp.errorCode = ErrorCode.E_SYNTAX_ERROR ∧
    (onError env ⟨Code.kStatementEmpty, msg⟩ q).resp.errorCode = ErrorCode.E_STATEMENT_EMPTY ∧
    (onError env ⟨Code.kSemanticError, msg⟩ q).resp.errorCode = ErrorCode.E_SEMANTIC_ERROR ∧
    (onError env ⟨Code.kPermissionError, msg⟩ q).resp.errorCode = ErrorCode.E_BAD_PERMISSION ∧
    ([Code.kLeaderChanged, Code.kBalanced, Code.kEdgeNotFound, Code.kError, Code.kHostNotFound,
      Code.kIndexNotFound, Code.kInserted, Code.kKeyNotFound, Code.kPartialSuccess,
      Code.kNoSuchFile, Code.kNotSupported, Code.kPartNotFound, Code.kSpaceNotFound,
      Code.kGroupNotFound, Code.kZoneNotFound, Code.kTagNotFound, Code.kUserNotFound,
      Code.kListenerNotFound, Code.kSessionNotFound].map
        fun c => (onError env ⟨c, msg⟩ q).resp.errorCode) =
      List.replicate 19 ErrorCode.E_EXECUTION_ERROR ∧
    (∀ c : Code, c ∈
      [Code.kOk, Code.kSyntaxError, Code.kStatementEmpty, Code.kSemanticError,
       Code.kPermissionError, Code.kLeaderChanged, Code.kBalanced, Code.kEdgeNotFound,
       Code.kError, Code.kHostNotFound, Code.kIndexNotFound, Code.kInserted, Code.kKeyNotFound,
       Code.kPartialSuccess, Code.kNoSuchFile, Code.kNotSupported, Code.kPartNotFound,
       Code.kSpaceNotFound, Code.kGroupNotFound, Code.kZoneNotFound, Code.kTagNotFound,
       Code.kUserNotFound, Code.kListenerNotFound, Code.kSessionNotFound]) ∧
    (∀ (status : Status) (q2 : QueryInstance),
      (onError env status q2).resp.errorCode = (onError env status q).resp.errorCode) := by
  refine ⟨?_, ?_, ?_, ?_, ?_, ?_, ?_, ?_⟩
  · rw [onError_errorCode]; rfl
  · rw [onError_errorCode]; rfl
  · rw [onError_errorCode]; rfl
  · rw [onError_errorCode]; rfl
  · rw [onError_errorCode]; rfl
  · simp only [onError_errorCode, List.map]; rfl
  · intro c; cases c <;> decide
  · intro status q2; rw [onError_errorCode, onError_errorCode]

theorem counterValue_addSlowQueryStats_of_ne (env : Env) (latency : Nat) (spaceName : String)
    (stats : List StatRecord) (m : Metric) (h1 : m ≠ Metric.kQueryLatencyUs)
    (h2 : m ≠ Metric.kNumSlowQueries) (h3 : m ≠ Metric.kSlowQueryLatencyUs) :
    counterValue m.id (addSlowQueryStats env latency spaceName stats) =
      counterValue m.id stats := by
  have e1 : Metric.kQueryLatencyUs ≠ m := fun h => h1 h.symm
  have e2 : Metric.kNumSlowQueries ≠ m := fun h => h2 h.symm
  have e3 : Metric.kSlowQueryLatencyUs ≠ m := fun h => h3 h.symm
  unfold addSlowQueryStats
  by_cases hs : spaceLevel env spaceName <;>
    by_cases hl : latency > toUInt64 env.slow_query_threshold_us <;>
    simp [hs, hl, counterValue_addValue, Metric.id, StatsManager.counterWithLabels,
      StatsManager.histoWithLabels, e1, e2, e3]

/-- C5: for every status passed to `onError`, the unlabeled counter
`num_query_errors_leader_changes` grows by exactly 1 when the code is LeaderChanged (which
is reported as E_EXECUTION_ERROR) and by 0 for every other code, and the unlabeled counter
`num_query_errors` grows by exactly 1 in both cases. -/
theorem onError_error_counters (env : Env) (status : Status) (q : QueryInstance) :
    counterValue Metric.kNumQueryErrorsLeaderChanges.id (onError env status q).stats =
      counterValue Metric.kNumQueryErrorsLeaderChanges.id q.stats +
        (if status.code = Code.kLeaderChanged then 1 else 0) ∧
    counterValue Metric.kNumQueryErrors.id (onError env status q).stats =
      counterValue Metric.kNumQueryErrors.id q.stats + 1 ∧
    (∀ msg : String,
      (onError env ⟨Code.kLeaderChanged, msg⟩ q).resp.errorCode = ErrorCode.E_EXECUTION_ERROR) := by
  refine ⟨?_, ?_, ?_⟩
  · rw [onError_stats, counterValue_addSlowQueryStats_of_ne _ _ _ _ _ (by decide) (by decide)
      (by decide)]
    unfold leaderChangedStats
    by_cases hs : spaceLevel env env.spaceName <;> cases hc : status.code <;>
      simp [hs, counterValue_addValue, Metric.id, StatsManager.counterWithLabels,
        StatsManager.defaultValue]
  · rw [onError_stats, counterValue_addSlowQueryStats_of_ne _ _ _ _ _ (by decide) (by decide)
      (by decide)]
    unfold leaderChangedStats
    by_cases hs : spaceLevel env env.spaceName <;> cases hc : status.code <;>
      simp [hs, counterValue_addValue, Metric.id, StatsManager.counterWithLabels,
        StatsManager.defaultValue]
  · intro msg; rw [onError_errorCode]; rfl

/-! ## Sentence count and slow-query accounting -/

/-- C8: when the parse succeeds, `validateAndOptimize` raises the unlabeled `num_sentences`
counter by N for a SEQUENTIAL sentence of N sub-sentences and by 1 for every other sentence,
whatever validation and optimization return afterwards; when the parse fails the counter
keeps its value. -/
theorem validateAndOptimize_num_sentences (env : Env) (q : QueryInstance) :
    counterValue Metric.kNumSentences.id (validateAndOptimize env q).2.stats =
      counterValue Metric.kNumSentences.id q.stats +
        (match env.parse with
          | StatusOr.value (Sentence.sequential n) => n
          | StatusOr.value _ => 1
          | StatusOr.status _ _ => 0) := by
  unfold validateAndOptimize findBestPlan
  cases hp : env.parse with
  | status s h => simp
  | value sentence =>
    cases hb : env.findBestPlan with
    | status s h =>
      have hs : ¬ s.code = Code.kOk := by simpa [Status.ok] using h
      cases sentence <;> by_cases hv : env.validate.code = Code.kOk <;>
        by_cases hl : spaceLevel env env.spaceName <;>
        simp [hv, hl, hs, Status.ok, counterValue_addValue, Metric.id,
          StatsManager.counterWithLabels, StatsManager.histoWithLabels,
          StatsManager.defaultValue]
    | value root =>
      cases sentence <;> by_cases hv : env.validate.code = Code.kOk <;>
        by_cases hl : spaceLevel env env.spaceName <;>
        simp [hv, hl, Status.ok, Status.OK, counterValue_addValue, Metric.id,
          StatsManager.counterWithLabels, StatsManager.histoWithLabels,
          StatsManager.defaultValue]

theorem fillRespData_isSome (q : QueryInstance) (root : PlanNode)
    (h : q.plan.root = some root) :
    ∃ q1, fillRespData q = some q1 ∧ q1.stats = q.stats ∧ q1.calls = q.calls ∧
      q1.resp.planDesc = q.resp.planDesc ∧
      (q1.resp.errorMsg = q.resp.errorMsg ∧ q1.resp.errorCode = q.resp.errorCode ∨
        q1.resp.errorMsg = some "Internal error: empty column name list" ∧
          q1.resp.errorCode = ErrorCode.E_EXECUTION_ERROR) := by
  unfold fillRespData
  simp only [h]
  by_cases he : q.ectx.exist root.outputVar
  · simp only [he, Bool.not_true, Bool.false_eq_true, if_false]
    cases hv : (q.ectx.moveValue root.outputVar).1 with
    | dataSet ds => by_cases hc : ds.colNames.isEmpty <;> simp [hc]
    | empty => simp
    | int i => simp
    | str t => simp
  · simp [he]

theorem onFinish_eq (env : Env) (q : QueryInstance) :
    onFinish env q =
      (fillRespData { q with calls := q.calls ++ [Call.onFinish],
                             resp := { q.resp with spaceName := some env.spaceName } }).map
        fun q1 =>
          { q1 with resp := { q1.resp with latencyInUs := env.elapsedInUSec },
                    stats := addSlowQueryStats env env.elapsedInUSec env.spaceName q1.stats,
                    calls := q1.calls ++ [Call.finish, Call.deleteQuery, Call.deleteThis] } := by
  unfold onFinish
  cases h : fillRespData { q with calls := q.calls ++ [Call.onFinish],
                                  resp := { q.resp with spaceName := some env.spaceName } } <;>
    simp [h]

theorem onFinish_isSome (env : Env) (q : QueryInstance) (root : PlanNode)
    (h : q.plan.root = some root) :
    ∃ q2, onFinish env q = some q2 ∧
      q2.stats = addSlowQueryStats env env.elapsedInUSec env.spaceName q.stats ∧
      q2.calls = q.calls ++ [Call.onFinish, Call.finish, Call.deleteQuery, Call.deleteThis] ∧
      q2.resp.planDesc = q.resp.planDesc ∧
      (q2.resp.errorMsg = q.resp.errorMsg ∧ q2.resp.errorCode = q.resp.errorCode ∨
        q2.resp.errorMsg = some "Internal error: empty column name list" ∧
          q2.resp.errorCode = ErrorCode.E_EXECUTION_ERROR) := by
  obtain ⟨q1, h1, hs, hc, hp, hr⟩ :=
    fillRespData_isSome { q with calls := q.calls ++ [Call.onFinish],
                                 resp := { q.resp with spaceName := some env.spaceName } } root h
  rw [onFinish_eq, h1]
  refine ⟨_, rfl, ?_, ?_, ?_, ?_⟩
  · simp [hs]
  · simp [hc]
  · simpa using hp
  · simpa using hr

/-- C9: `addSlowQueryStats` raises `num_slow_queries` by exactly 1 and records the latency
in `slow_query_latency_us` when the latency is strictly greater than the threshold converted
to an unsigned 64-bit value (the signed flag taken modulo 2^64), and leaves both untouched
otherwise; `query_latency_us` receives the latency on every call; `onError` and `onFinish`
each run it exactly once, on the elapsed time of the request. -/
theorem addSlowQueryStats_accounting (env : Env) (latency : Nat) (spaceName : String)
    (stats : List StatRecord) :
    counterValue Metric.kNumSlowQueries.id (addSlowQueryStats env latency spaceName stats) =
      counterValue Metric.kNumSlowQueries.id stats +
        (if latency > toUInt64 env.slow_query_threshold_us then 1 else 0) ∧
    recordedValues Metric.kSlowQueryLatencyUs.id (addSlowQueryStats env latency spaceName stats) =
      recordedValues Metric.kSlowQueryLatencyUs.id stats ++
        (if latency > toUInt64 env.slow_query_threshold_us then [latency] else []) ∧
    recordedValues Metric.kQueryLatencyUs.id (addSlowQueryStats env latency spaceName stats) =
      recordedValues Metric.kQueryLatencyUs.id stats ++ [latency] ∧
    ((toUInt64 env.slow_query_threshold_us : Int) = env.slow_query_threshold_us % 2 ^ 64) ∧
    (∀ (status : Status) (q : QueryInstance), ∃ before : List StatRecord,
      (onError env status q).stats =
        addSlowQueryStats env env.elapsedInUSec env.spaceName before ∧
      recordedValues Metric.kQueryLatencyUs.id before =
        recordedValues Metric.kQueryLatencyUs.id q.stats ∧
      recordedValues Metric.kSlowQueryLatencyUs.id before =
        recordedValues Metric.kSlowQueryLatencyUs.id q.stats ∧
      counterValue Metric.kNumSlowQueries.id before =
        counterValue Metric.kNumSlowQueries.id q.stats) ∧
    (∀ (q : QueryInstance) (root : PlanNode) (t : Nat), ∃ q2 : QueryInstance,
      onFinish env { q with plan := ⟨some root, t⟩ } = some q2 ∧
      q2.stats = addSlowQueryStats env env.elapsedInUSec env.spaceName q.stats) := by
  refine ⟨?_, ?_, ?_, ?_, ?_, ?_⟩
  · unfold addSlowQueryStats
    by_cases hs : spaceLevel env spaceName <;>
      by_cases hl : latency > toUInt64 env.slow_query_threshold_us <;>
      simp [hs, hl, counterValue_addValue, Metric.id, StatsManager.counterWithLabels,
        StatsManager.histoWithLabels, StatsManager.defaultValue]
  · unfold addSlowQueryStats
    by_cases hs : spaceLevel env spaceName <;>
      by_cases hl : latency > toUInt64 env.slow_query_threshold_us <;>
      simp [hs, hl, recordedValues_addValue, Metric.id, StatsManager.counterWithLabels,
        StatsManager.histoWithLabels, StatsManager.defaultValue]
  · unfold addSlowQueryStats
    by_cases hs : spaceLevel env spaceName <;>
      by_cases hl : latency > toUInt64 env.slow_query_threshold_us <;>
      simp [hs, hl, recordedValues_addValue, Metric.id, StatsManager.counterWithLabels,
        StatsManager.histoWithLabels, StatsManager.defaultValue]
  · unfold toUInt64
    exact Int.toNat_of_nonneg (Int.emod_nonneg _ (by norm_num))
  · intro status q
    refine ⟨_, onError_stats env status q, ?_, ?_, ?_⟩ <;>
    · unfold leaderChangedStats
      by_cases hs : spaceLevel env env.spaceName <;> cases hc : status.code <;>
        simp [hs, counterValue_addValue, recordedValues_addValue, Metric.id,
          StatsManager.counterWithLabels, StatsManager.defaultValue]
  · intro q root t
    obtain ⟨q2, h2, hs, _⟩ := onFinish_isSome env { q with plan := ⟨some root, t⟩ } root rfl
    exact ⟨q2, h2, hs⟩

/-! ## The paths of `execute` -/

theorem validateAndOptimize_value (env : Env) (q : QueryInstance) (s : Sentence)
    (root : PlanNode) (hp : env.parse = StatusOr.value s) (hv : env.validate.ok = true)
    (hb : env.findBestPlan = StatusOr.value root) :
    ∃ stats, validateAndOptimize env q =
      (Status.OK, { q with sentence_ := some s, plan := ⟨some root, env.optimizeElapsedUs⟩,
                           stats := stats }) := by
  have hok : Status.OK.ok = true := rfl
  unfold validateAndOptimize findBestPlan
  cases s <;> by_cases hl : spaceLevel env env.spaceName <;>
    simp [hp, hv, hb, hl, hok]

theorem validateAndOptimize_failed (env : Env) (q : QueryInstance)
    (h : ¬ ∃ s root, env.parse = StatusOr.value s ∧ env.validate.ok = true ∧
      env.findBestPlan = StatusOr.value root) :
    (validateAndOptimize env q).1.ok = false ∧
      (validateAndOptimize env q).2.calls = q.calls ∧
      (validateAndOptimize env q).2.resp = q.resp ∧
      (validateAndOptimize env q).2.ectx = q.ectx := by
  unfold validateAndOptimize findBestPlan
  cases hp : env.parse with
  | status st hst => exact ⟨hst, rfl, rfl, rfl⟩
  | value s =>
    cases hv : env.validate.ok with
    | false =>
      cases s <;> by_cases hl : spaceLevel env env.spaceName <;>
        simp [hv, hl]
    | true =>
      cases hb : env.findBestPlan with
      | value root => exact absurd ⟨s, root, hp, hv, hb⟩ h
      | status st hst =>
        cases s <;> by_cases hl : spaceLevel env env.spaceName <;>
          simp [hv, hl, hst]

theorem execute_failed (env : Env) (q : QueryInstance)
    (h : ¬ ∃ s root, env.parse = StatusOr.value s ∧ env.validate.ok = true ∧
      env.findBestPlan = StatusOr.value root) :
    ∃ st q1, st.ok = false ∧ q1.calls = q.calls ∧ q1.resp = q.resp ∧ q1.ectx = q.ectx ∧
      execute env q = some (onError env st q1) := by
  obtain ⟨hst, hc, hr, hx⟩ := validateAndOptimize_failed env q h
  refine ⟨_, _, hst, hc, hr, hx, ?_⟩
  unfold execute
  simp [hst]

theorem execute_explain_only (env : Env) (q : QueryInstance) (root : PlanNode)
    (hp : env.parse = StatusOr.value (Sentence.explain false)) (hv : env.validate.ok = true)
    (hb : env.findBestPlan = StatusOr.value root) :
    execute env q = onFinish env
      { q with sentence_ := some (Sentence.explain false),
               plan := ⟨some root, env.optimizeElapsedUs⟩,
               stats := (validateAndOptimize env q).2.stats,
               resp := { q.resp with
                 planDesc := some (env.describe ⟨some root, env.optimizeElapsedUs⟩) },
               calls := q.calls ++ [Call.describe] } := by
  obtain ⟨stats, he⟩ := validateAndOptimize_value env q _ root hp hv hb
  have hok : Status.OK.ok = true := rfl
  unfold execute
  simp [he, hok, explainOrContinue]

theorem execute_scheduled (env : Env) (q : QueryInstance) (s : Sentence) (root : PlanNode)
    (hp : env.parse = StatusOr.value s) (hs : s ≠ Sentence.explain false)
    (hv : env.validate.ok = true) (hb : env.findBestPlan = StatusOr.value root) :
    ∃ q2 : QueryInstance,
      q2.plan = ⟨some root, env.optimizeElapsedUs⟩ ∧
      q2.ectx = (env.schedule q.ectx).1 ∧
      q2.resp = { q.resp with planDesc := (if s = Sentence.explain true then
        some (env.describe ⟨some root, env.optimizeElapsedUs⟩) else q.resp.planDesc) } ∧
      q2.calls = q.calls ++ (if s = Sentence.explain true then [Call.describe] else []) ++
        [Call.schedule] ∧
      execute env q =
        (match (env.schedule q.ectx).2 with
          | ScheduleOutcome.value st => if st.ok then onFinish env q2 else some (onError env st q2)
          | ScheduleOutcome.executionError st => some (onError env st q2)
          | ScheduleOutcome.stdException what => some (onError env (Status.Error what) q2)) := by
  obtain ⟨stats, he⟩ := validateAndOptimize_value env q s root hp hv hb
  have hok : Status.OK.ok = true := rfl
  refine ⟨{ resp := { q.resp with planDesc := (if s = Sentence.explain true then
              some (env.describe ⟨some root, env.optimizeElapsedUs⟩) else q.resp.planDesc) },
            ectx := (env.schedule q.ectx).1,
            plan := ⟨some root, env.optimizeElapsedUs⟩,
            sentence_ := some s,
            stats := stats,
            calls := q.calls ++ (if s = Sentence.explain true then [Call.describe] else []) ++
              [Call.schedule] }, rfl, rfl, rfl, rfl, ?_⟩
  unfold execute
  rcases hsch : env.schedule q.ectx with ⟨ectx, outcome⟩
  cases s with
  | explain isProfile =>
    cases isProfile with
    | false => exact absurd rfl hs
    | true => cases outcome <;> simp [he, hok, explainOrContinue, hsch]
  | sequential n => cases outcome <;> simp [he, hok, explainOrContinue, hsch]
  | other => cases outcome <;> simp [he, hok, explainOrContinue, hsch]

theorem execute_scheduled_eq (env : Env) (q : QueryInstance) (s : Sentence) (root : PlanNode)
    (hp : env.parse = StatusOr.value s) (hs : s ≠ Sentence.explain false)
    (hv : env.validate.ok = true) (hb : env.findBestPlan = StatusOr.value root)
    (q1 : QueryInstance)
    (hq1 : q1 =
      { resp := { q.resp with planDesc := (if s = Sentence.explain true then
          some (env.describe ⟨some root, env.optimizeElapsedUs⟩) else q.resp.planDesc) },
        ectx := (env.schedule q.ectx).1,
        plan := ⟨some root, env.optimizeElapsedUs⟩,
        sentence_ := some s,
        stats := (validateAndOptimize env q).2.stats,
        calls := q.calls ++ (if s = Sentence.explain true then [Call.describe] else []) ++
          [Call.schedule] }) :
    execute env q =
      (match (env.schedule q.ectx).2 with
        | ScheduleOutcome.value st => if st.ok then onFinish env q1 else some (onError env st q1)
        | ScheduleOutcome.executionError st => some (onError env st q1)
        | ScheduleOutcome.stdException what => some (onError env (Status.Error what) q1)) := by
  obtain ⟨stats, he⟩ := validateAndOptimize_value env q s root hp hv hb
  have hok : Status.OK.ok = true := rfl
  subst hq1
  unfold execute
  rcases hsch : env.schedule q.ectx with ⟨ectx, outcome⟩
  cases s with
  | explain isProfile =>
    cases isProfile with
    | false => exact absurd rfl hs
    | true => cases outcome <;> simp [he, hok, explainOrContinue, hsch]
  | sequential n => cases outcome <;> simp [he, hok, explainOrContinue, hsch]
  | other => cases outcome <;> simp [he, hok, explainOrContinue, hsch]

theorem onError_planDesc (env : Env) (status : Status) (q : QueryInstance) :
    (onError env status q).resp.planDesc = q.resp.planDesc := by
  unfold onError
  by_cases h : spaceLevel env env.spaceName <;> simp [h]

theorem execute_calls (env : Env) (q : QueryInstance) :
    ∃ q2 trace, execute env q = some q2 ∧ q2.calls = q.calls ++ trace ∧
      trace ∈
        [[Call.onError, Call.deleteQuery, Call.finish, Call.deleteThis],
         [Call.describe, Call.onFinish, Call.finish, Call.deleteQuery, Call.deleteThis],
         [Call.schedule, Call.onFinish, Call.finish, Call.deleteQuery, Call.deleteThis],
         [Call.schedule, Call.onError, Call.deleteQuery, Call.finish, Call.deleteThis],
         [Call.describe, Call.schedule, Call.onFinish, Call.finish, Call.deleteQuery,
          Call.deleteThis],
         [Call.describe, Call.schedule, Call.onError, Call.deleteQuery, Call.finish,
          Call.deleteThis]] := by
  by_cases hok : ∃ s root, env.parse = StatusOr.value s ∧ env.validate.ok = true ∧
      env.findBestPlan = StatusOr.value root
  · obtain ⟨s, root, hp, hv, hb⟩ := hok
    by_cases hs : s = Sentence.explain false
    · subst hs
      obtain ⟨q2, h2, _, hc, _⟩ := onFinish_isSome env
        { q with sentence_ := some (Sentence.explain false),
                 plan := ⟨some root, env.optimizeElapsedUs⟩,
                 stats := (validateAndOptimize env q).2.stats,
                 resp := { q.resp with
                   planDesc := some (env.describe ⟨some root, env.optimizeElapsedUs⟩) },
                 calls := q.calls ++ [Call.describe] } root rfl
      refine ⟨q2, [Call.describe, Call.onFinish, Call.finish, Call.deleteQuery,
        Call.deleteThis], ?_, ?_, ?_⟩
      · rw [execute_explain_only env q root hp hv hb, h2]
      · rw [hc]; simp
      · simp
    · obtain ⟨q1, hplan, _, _, hcalls, hex⟩ := execute_scheduled env q s root hp hs hv hb
      have hfin : ∃ q2, onFinish env q1 = some q2 ∧
          q2.calls = q1.calls ++
            [Call.onFinish, Call.finish, Call.deleteQuery, Call.deleteThis] := by
        obtain ⟨q2, h2, _, hc, _⟩ := onFinish_isSome env q1 root (by rw [hplan])
        exact ⟨q2, h2, hc⟩
      have herr : ∀ st, (onError env st q1).calls = q1.calls ++
          [Call.onError, Call.deleteQuery, Call.finish, Call.deleteThis] :=
        fun st => onError_calls env st q1
      obtain ⟨q2, h2, hc2⟩ := hfin
      rw [hex]
      by_cases hprof : s = Sentence.explain true
      · rw [if_pos hprof] at hcalls
        cases (env.schedule q.ectx).2 with
        | value st =>
          by_cases hst : st.ok = true
          · refine ⟨q2, [Call.describe, Call.schedule, Call.onFinish, Call.finish,
              Call.deleteQuery, Call.deleteThis], by simp [hst, h2], ?_, by simp⟩
            rw [hc2, hcalls]; simp
          · refine ⟨onError env st q1, [Call.describe, Call.schedule, Call.onError,
              Call.deleteQuery, Call.finish, Call.deleteThis], by simp [hst], ?_, by simp⟩
            rw [herr, hcalls]; simp
        | executionError st =>
          refine ⟨onError env st q1, [Call.describe, Call.schedule, Call.onError,
            Call.deleteQuery, Call.finish, Call.deleteThis], rfl, ?_, by simp⟩
          rw [herr, hcalls]; simp
        | stdException what =>
          refine ⟨onError env (Status.Error what) q1, [Call.describe, Call.schedule,
            Call.onError, Call.deleteQuery, Call.finish, Call.deleteThis], rfl, ?_, by simp⟩
          rw [herr, hcalls]; simp
      · rw [if_neg hprof] at hcalls
        cases (env.schedule q.ectx).2 with
        | value st =>
          by_cases hst : st.ok = true
          · refine ⟨q2, [Call.schedule, Call.onFinish, Call.finish,
              Call.deleteQuery, Call.deleteThis], by simp [hst, h2], ?_, by simp⟩
            rw [hc2, hcalls]; simp
          · refine ⟨onError env st q1, [Call.schedule, Call.onError,
              Call.deleteQuery, Call.finish, Call.deleteThis], by simp [hst], ?_, by simp⟩
            rw [herr, hcalls]; simp
        | executionError st =>
          refine ⟨onError env st q1, [Call.schedule, Call.onError,
            Call.deleteQuery, Call.finish, Call.deleteThis], rfl, ?_, by simp⟩
          rw [herr, hcalls]; simp
        | stdException what =>
          refine ⟨onError env (Status.Error what) q1, [Call.schedule,
            Call.onError, Call.deleteQuery, Call.finish, Call.deleteThis], rfl, ?_, by simp⟩
          rw [herr, hcalls]; simp
  · obtain ⟨st, q1, _, hc, _, _, hex⟩ := execute_failed env q hok
    refine ⟨onError env st q1, [Call.onError, Call.deleteQuery, Call.finish,
      Call.deleteThis], hex, ?_, by simp⟩
    rw [onError_calls, hc]

/-- C2: every run of `execute`, whatever parser, validator, optimizer, EXPLAIN check and
scheduler give (a status, a thrown `ExecutionError`, a thrown `std::exception`), returns,
runs exactly one of the terminal handlers `onFinish` and `onError`, and calls
`session.deleteQuery` exactly once; the query was added to the session once, by the
constructor, and `execute` adds none. -/
theorem execute_removes_query_once (env : Env) (q : QueryInstance) :
    (∃ q2, execute env q = some q2 ∧
      q2.calls.count Call.onFinish + q2.calls.count Call.onError =
        q.calls.count Call.onFinish + q.calls.count Call.onError + 1 ∧
      q2.calls.count Call.deleteQuery = q.calls.count Call.deleteQuery + 1 ∧
      q2.calls.count Call.addQuery = q.calls.count Call.addQuery) ∧
    (∀ (resp : ExecutionResponse) (ectx : ExecutionContext) (plan : ExecutionPlan)
        (stats : List StatRecord),
      (create resp ectx plan stats).calls = [Call.addQuery]) := by
  refine ⟨?_, fun _ _ _ _ => rfl⟩
  obtain ⟨q2, trace, hex, hc, ht⟩ := execute_calls env q
  refine ⟨q2, hex, ?_⟩
  rw [hc]
  simp only [List.count_append]
  simp only [List.mem_cons, List.mem_singleton, List.not_mem_nil, or_false] at ht
  rcases ht with h | h | h | h | h | h <;> subst h <;> refine ⟨?_, ?_, ?_⟩ <;>
    simp [List.count_cons] <;> omega

/-- C3: for a sentence that parses, validates and optimizes, `execute` returns; the response
gets its `planDesc` from the plan exactly when the sentence kind is EXPLAIN.  For an EXPLAIN
without PROFILE the result is that of `onFinish` on the state left by `validateAndOptimize`
and `describe`, with the variable store untouched: the scheduler is not called, and the
result is the same for every scheduler.  For every other sentence (not an EXPLAIN, or an
EXPLAIN with PROFILE) `scheduler.schedule()` is called once, on the variable store of the
query, and the result is that of the continuation chosen by the outcome of that run
(`onFinish` on an OK status, `onError` on any other status or thrown error) on the state
whose variable store is the one the scheduler left. -/
theorem execute_explain_or_schedule (env : Env) (q : QueryInstance) (s : Sentence)
    (root : PlanNode) (hp : env.parse = StatusOr.value s) (hv : env.validate.ok = true)
    (hb : env.findBestPlan = StatusOr.value root) :
    ∃ q2, execute env q = some q2 ∧
      q2.resp.planDesc =
        (if s.kind = Sentence.Kind.kExplain then
          some (env.describe ⟨some root, env.optimizeElapsedUs⟩)
        else q.resp.planDesc) ∧
      q2.calls.count Call.describe =
        q.calls.count Call.describe + (if s.kind = Sentence.Kind.kExplain then 1 else 0) ∧
      q2.calls.count Call.schedule =
        q.calls.count Call.schedule +
          (if s.kind ≠ Sentence.Kind.kExplain ∨ s = Sentence.explain true then 1 else 0) ∧
      (s ≠ Sentence.explain false ∨
        (q2.calls = q.calls ++ [Call.describe, Call.onFinish, Call.finish, Call.deleteQuery,
            Call.deleteThis] ∧
          (∀ schedule : ExecutionContext → ExecutionContext × ScheduleOutcome,
            execute { env with schedule := schedule } q = some q2) ∧
          onFinish env
            { resp := { q.resp with
                planDesc := some (env.describe ⟨some root, env.optimizeElapsedUs⟩) },
              ectx := q.ectx,
              plan := ⟨some root, env.optimizeElapsedUs⟩,
              sentence_ := some (Sentence.explain false),
              stats := (validateAndOptimize env q).2.stats,
              calls := q.calls ++ [Call.describe] } = some q2)) ∧
      (s = Sentence.explain false ∨
        ∃ q1 : QueryInstance,
          q1 =
            { resp := { q.resp with planDesc := (if s = Sentence.explain true then
                some (env.describe ⟨some root, env.optimizeElapsedUs⟩) else q.resp.planDesc) },
              ectx := (env.schedule q.ectx).1,
              plan := ⟨some root, env.optimizeElapsedUs⟩,
              sentence_ := some s,
              stats := (validateAndOptimize env q).2.stats,
              calls := q.calls ++ (if s = Sentence.explain true then [Call.describe] else []) ++
                [Call.schedule] } ∧
          (match (env.schedule q.ectx).2 with
            | ScheduleOutcome.value st =>
              if st.ok then onFinish env q1 else some (onError env st q1)
            | ScheduleOutcome.executionError st => some (onError env st q1)
            | ScheduleOutcome.stdException what =>
              some (onError env (Status.Error what) q1)) = some q2) := by
  by_cases hs : s = Sentence.explain false
  · subst hs
    obtain ⟨q2, h2, _, hc, hd, _⟩ := onFinish_isSome env
      { q with sentence_ := some (Sentence.explain false),
               plan := ⟨some root, env.optimizeElapsedUs⟩,
               stats := (validateAndOptimize env q).2.stats,
               resp := { q.resp with
                 planDesc := some (env.describe ⟨some root, env.optimizeElapsedUs⟩) },
               calls := q.calls ++ [Call.describe] } root rfl
    have hc2 : q2.calls = q.calls ++ [Call.describe, Call.onFinish, Call.finish,
        Call.deleteQuery, Call.deleteThis] := by rw [hc]; simp
    refine ⟨q2, ?_, ?_, ?_, ?_, Or.inr ⟨hc2, ?_, h2⟩, Or.inl rfl⟩
    · rw [execute_explain_only env q root hp hv hb, h2]
    · rw [hd]; simp [Sentence.kind]
    · rw [hc2]; simp [Sentence.kind, List.count_append, List.count_cons]
    · rw [hc2]; simp [Sentence.kind, List.count_append, List.count_cons]
    · intro schedule
      rw [execute_explain_only { env with schedule := schedule } q root hp hv hb]
      exact h2
  · obtain ⟨q1, hq1⟩ : ∃ q1 : QueryInstance, q1 =
        { resp := { q.resp with planDesc := (if s = Sentence.explain true then
            some (env.describe ⟨some root, env.optimizeElapsedUs⟩) else q.resp.planDesc) },
          ectx := (env.schedule q.ectx).1,
          plan := ⟨some root, env.optimizeElapsedUs⟩,
          sentence_ := some s,
          stats := (validateAndOptimize env q).2.stats,
          calls := q.calls ++ (if s = Sentence.explain true then [Call.describe] else []) ++
            [Call.schedule] } := ⟨_, rfl⟩
    have hplan : q1.plan = ⟨some root, env.optimizeElapsedUs⟩ := by rw [hq1]
    have hresp : q1.resp.planDesc = (if s = Sentence.explain true then
        some (env.describe ⟨some root, env.optimizeElapsedUs⟩) else q.resp.planDesc) := by
      rw [hq1]
    have hcalls : q1.calls =
        q.calls ++ (if s = Sentence.explain true then [Call.describe] else []) ++
          [Call.schedule] := by rw [hq1]
    have hex := execute_scheduled_eq env q s root hp hs hv hb q1 hq1
    have hkind : (s.kind = Sentence.Kind.kExplain) ↔ s = Sentence.explain true := by
      cases s with
      | explain isProfile =>
        cases isProfile with
        | false => exact absurd rfl hs
        | true => simp [Sentence.kind]
      | sequential n => simp [Sentence.kind]
      | other => simp [Sentence.kind]
    have hfin : ∃ q2, onFinish env q1 = some q2 ∧
        q2.calls = q1.calls ++ [Call.onFinish, Call.finish, Call.deleteQuery, Call.deleteThis] ∧
        q2.resp.planDesc = q1.resp.planDesc := by
      obtain ⟨q2, h2, _, hc, hd, _⟩ := onFinish_isSome env q1 root (by rw [hplan])
      exact ⟨q2, h2, hc, hd⟩
    obtain ⟨q2, h2, hc2, hd2⟩ := hfin
    have key : ∀ q3 : QueryInstance, q3.resp.planDesc = q1.resp.planDesc →
        (q3.calls = q1.calls ++ [Call.onFinish, Call.finish, Call.deleteQuery, Call.deleteThis] ∨
          q3.calls = q1.calls ++
            [Call.onError, Call.deleteQuery, Call.finish, Call.deleteThis]) →
        q3.resp.planDesc =
          (if s.kind = Sentence.Kind.kExplain then
            some (env.describe ⟨some root, env.optimizeElapsedUs⟩)
          else q.resp.planDesc) ∧
        q3.calls.count Call.describe =
          q.calls.count Call.describe + (if s.kind = Sentence.Kind.kExplain then 1 else 0) ∧
        q3.calls.count Call.schedule =
          q.calls.count Call.schedule +
            (if s.kind ≠ Sentence.Kind.kExplain ∨ s = Sentence.explain true then 1 else 0) := by
      intro q3 hd3 hc3
      have hsched : (s.kind ≠ Sentence.Kind.kExplain ∨ s = Sentence.explain true) := by
        by_cases hk : s.kind = Sentence.Kind.kExplain
        · exact Or.inr (hkind.mp hk)
        · exact Or.inl hk
      refine ⟨?_, ?_, ?_⟩
      · rw [hd3, hresp]
        by_cases hk : s.kind = Sentence.Kind.kExplain
        · simp [hkind.mp hk, Sentence.kind]
        · have hne : ¬ s = Sentence.explain true := fun h => hk (hkind.mpr h)
          simp [hk, hne]
      · by_cases hk : s.kind = Sentence.Kind.kExplain
        · have he : s = Sentence.explain true := hkind.mp hk
          rcases hc3 with h | h <;> rw [h, hcalls] <;>
            simp [he, Sentence.kind, List.count_append, List.count_cons]
        · have hne : ¬ s = Sentence.explain true := fun h => hk (hkind.mpr h)
          rcases hc3 with h | h <;> rw [h, hcalls] <;>
            simp [hk, hne, List.count_append, List.count_cons]
      · rw [if_pos hsched]
        by_cases he : s = Sentence.explain true
        · rcases hc3 with h | h <;> rw [h, hcalls] <;>
            simp [he, List.count_append, List.count_cons]
        · rcases hc3 with h | h <;> rw [h, hcalls] <;>
            simp [he, List.count_append, List.count_cons]
    have main : ∃ q3, execute env q = some q3 ∧
        q3.resp.planDesc = q1.resp.planDesc ∧
        (q3.calls = q1.calls ++ [Call.onFinish, Call.finish, Call.deleteQuery, Call.deleteThis] ∨
          q3.calls = q1.calls ++
            [Call.onError, Call.deleteQuery, Call.finish, Call.deleteThis]) := by
      rw [hex]
      cases (env.schedule q.ectx).2 with
      | value st =>
        by_cases hst : st.ok = true
        · exact ⟨q2, by simp [hst, h2], hd2, Or.inl hc2⟩
        · exact ⟨onError env st q1, by simp [hst], onError_planDesc env st q1,
            Or.inr (onError_calls env st q1)⟩
      | executionError st =>
        exact ⟨onError env st q1, rfl, onError_planDesc env st q1,
          Or.inr (onError_calls env st q1)⟩
      | stdException what =>
        exact ⟨onError env (Status.Error what) q1, rfl, onError_planDesc env _ q1,
          Or.inr (onError_calls env _ q1)⟩
    obtain ⟨q3, h3, hd3, hc3⟩ := main
    obtain ⟨k1, k2, k3⟩ := key q3 hd3 hc3
    exact ⟨q3, h3, k1, k2, k3, Or.inl hs, Or.inr ⟨q1, hq1, by rw [← hex]; exact h3⟩⟩

/-- Witness of C3 on three queries: `explainEnv` (EXPLAIN without PROFILE, not scheduled),
`profileEnv` (EXPLAIN with PROFILE, scheduled) and `yieldEnv` (not an EXPLAIN, scheduled). -/
theorem execute_explain_or_schedule_witness :
    (explainEnv.parse = StatusOr.value (Sentence.explain false) ∧
      explainEnv.validate.ok = true ∧ explainEnv.findBestPlan = StatusOr.value ⟨"v"⟩ ∧
      ∃ q2, execute explainEnv freshInstance = some q2 ∧
        q2.resp.planDesc =
          (if (Sentence.explain false).kind = Sentence.Kind.kExplain then
            some (explainEnv.describe ⟨some (PlanNode.mk "v"), explainEnv.optimizeElapsedUs⟩)
          else freshInstance.resp.planDesc) ∧
        q2.calls.count Call.describe =
          freshInstance.calls.count Call.describe + (if (Sentence.explain false).kind = Sentence.Kind.kExplain then 1 else 0) ∧
        q2.calls.count Call.schedule =
          freshInstance.calls.count Call.schedule +
            (if (Sentence.explain false).kind ≠ Sentence.Kind.kExplain ∨ (Sentence.explain false) = Sentence.explain true then 1 else 0) ∧
        ((Sentence.explain false) ≠ Sentence.explain false ∨
          (q2.calls = freshInstance.calls ++ [Call.describe, Call.onFinish, Call.finish, Call.deleteQuery,
              Call.deleteThis] ∧
            (∀ schedule : ExecutionContext → ExecutionContext × ScheduleOutcome,
              execute { explainEnv with schedule := schedule } freshInstance = some q2) ∧
            onFinish explainEnv
              { resp := { freshInstance.resp with
                  planDesc := some (explainEnv.describe ⟨some (PlanNode.mk "v"), explainEnv.optimizeElapsedUs⟩) },
                ectx := freshInstance.ectx,
                plan := ⟨some (PlanNode.mk "v"), explainEnv.optimizeElapsedUs⟩,
                sentence_ := some (Sentence.explain false),
                stats := (validateAndOptimize explainEnv freshInstance).2.stats,
                calls := freshInstance.calls ++ [Call.describe] } = some q2)) ∧
        ((Sentence.explain false) = Sentence.explain false ∨
          ∃ q1 : QueryInstance,
            q1 =
              { resp := { freshInstance.resp with planDesc := (if (Sentence.explain false) = Sentence.explain true then
                  some (explainEnv.describe ⟨some (PlanNode.mk "v"), explainEnv.optimizeElapsedUs⟩) else freshInstance.resp.planDesc) },
                ectx := (explainEnv.schedule freshInstance.ectx).1,
                plan := ⟨some (PlanNode.mk "v"), explainEnv.optimizeElapsedUs⟩,
                sentence_ := some (Sentence.explain false),
                stats := (validateAndOptimize explainEnv freshInstance).2.stats,
                calls := freshInstance.calls ++ (if (Sentence.explain false) = Sentence.explain true then [Call.describe] else []) ++
                  [Call.schedule] } ∧
            (match (explainEnv.schedule freshInstance.ectx).2 with
              | ScheduleOutcome.value st =>
                if st.ok then onFinish explainEnv q1 else some (onError explainEnv st q1)
              | ScheduleOutcome.executionError st => some (onError explainEnv st q1)
              | ScheduleOutcome.stdException what =>
                some (onError explainEnv (Status.Error what) q1)) = some q2)) ∧
    (profileEnv.parse = StatusOr.value (Sentence.explain true) ∧
      profileEnv.validate.ok = true ∧ profileEnv.findBestPlan = StatusOr.value ⟨"v"⟩ ∧
      ∃ q2, execute profileEnv freshInstance = some q2 ∧
        q2.resp.planDesc =
          (if (Sentence.explain true).kind = Sentence.Kind.kExplain then
            some (profileEnv.describe ⟨some (PlanNode.mk "v"), profileEnv.optimizeElapsedUs⟩)
          else freshInstance.resp.planDesc) ∧
        q2.calls.count Call.describe =
          freshInstance.calls.count Call.describe + (if (Sentence.explain true).kind = Sentence.Kind.kExplain then 1 else 0) ∧
        q2.calls.count Call.schedule =
          freshInstance.calls.count Call.schedule +
            (if (Sentence.explain true).kind ≠ Sentence.Kind.kExplain ∨ (Sentence.explain true) = Sentence.explain true then 1 else 0) ∧
        ((Sentence.explain true) ≠ Sentence.explain false ∨
          (q2.calls = freshInstance.calls ++ [Call.describe, Call.onFinish, Call.finish, Call.deleteQuery,
              Call.deleteThis] ∧
            (∀ schedule : ExecutionContext → ExecutionContext × ScheduleOutcome,
              execute { profileEnv with schedule := schedule } freshInstance = some q2) ∧
            onFinish profileEnv
              { resp := { freshInstance.resp with
                  planDesc := some (profileEnv.describe ⟨some (PlanNode.mk "v"), profileEnv.optimizeElapsedUs⟩) },
                ectx := freshInstance.ectx,
                plan := ⟨some (PlanNode.mk "v"), profileEnv.optimizeElapsedUs⟩,
                sentence_ := some (Sentence.explain false),
                stats := (validateAndOptimize profileEnv freshInstance).2.stats,
                calls := freshInstance.calls ++ [Call.describe] } = some q2)) ∧
        ((Sentence.explain true) = Sentence.explain false ∨
          ∃ q1 : QueryInstance,
            q1 =
              { resp := { freshInstance.resp with planDesc := (if (Sentence.explain true) = Sentence.explain true then
                  some (profileEnv.describe ⟨some (PlanNode.mk "v"), profileEnv.optimizeElapsedUs⟩) else freshInstance.resp.planDesc) },
                ectx := (profileEnv.schedule freshInstance.ectx).1,
                plan := ⟨some (PlanNode.mk "v"), profileEnv.optimizeElapsedUs⟩,
                sentence_ := some (Sentence.explain true),
                stats := (validateAndOptimize profileEnv freshInstance).2.stats,
                calls := freshInstance.calls ++ (if (Sentence.explain true) = Sentence.explain true then [Call.describe] else []) ++
                  [Call.schedule] } ∧
            (match (profileEnv.schedule freshInstance.ectx).2 with
              | ScheduleOutcome.value st =>
                if st.ok then onFinish profileEnv q1 else some (onError profileEnv st q1)
              | ScheduleOutcome.executionError st => some (onError profileEnv st q1)
              | ScheduleOutcome.stdException what =>
                some (onError profileEnv (Status.Error what) q1)) = some q2)) ∧
    (yieldEnv.parse = StatusOr.value Sentence.other ∧
      yieldEnv.validate.ok = true ∧ yieldEnv.findBestPlan = StatusOr.value ⟨"v"⟩ ∧
      ∃ q2, execute yieldEnv freshInstance = some q2 ∧
        q2.resp.planDesc =
          (if Sentence.other.kind = Sentence.Kind.kExplain then
            some (yieldEnv.describe ⟨some (PlanNode.mk "v"), yieldEnv.optimizeElapsedUs⟩)
          else freshInstance.resp.planDesc) ∧
        q2.calls.count Call.describe =
          freshInstance.calls.count Call.describe + (if Sentence.other.kind = Sentence.Kind.kExplain then 1 else 0) ∧
        q2.calls.count Call.schedule =
          freshInstance.calls.count Call.schedule +
            (if Sentence.other.kind ≠ Sentence.Kind.kExplain ∨ Sentence.other = Sentence.explain true then 1 else 0) ∧
        (Sentence.other ≠ Sentence.explain false ∨
          (q2.calls = freshInstance.calls ++ [Call.describe, Call.onFinish, Call.finish, Call.deleteQuery,
              Call.deleteThis] ∧
            (∀ schedule : ExecutionContext → ExecutionContext × ScheduleOutcome,
              execute { yieldEnv with schedule := schedule } freshInstance = some q2) ∧
            onFinish yieldEnv
              { resp := { freshInstance.resp with
                  planDesc := some (yieldEnv.describe ⟨some (PlanNode.mk "v"), yieldEnv.optimizeElapsedUs⟩) },
                ectx := freshInstance.ectx,
                plan := ⟨some (PlanNode.mk "v"), yieldEnv.optimizeElapsedUs⟩,
                sentence_ := some (Sentence.explain false),
                stats := (validateAndOptimize yieldEnv freshInstance).2.stats,
                calls := freshInstance.calls ++ [Call.describe] } = some q2)) ∧
        (Sentence.other = Sentence.explain false ∨
          ∃ q1 : QueryInstance,
            q1 =
              { resp := { freshInstance.resp with planDesc := (if Sentence.other = Sentence.explain true then
                  some (yieldEnv.describe ⟨some (PlanNode.mk "v"), yieldEnv.optimizeElapsedUs⟩) else freshInstance.resp.planDesc) },
                ectx := (yieldEnv.schedule freshInstance.ectx).1,
                plan := ⟨some (PlanNode.mk "v"), yieldEnv.optimizeElapsedUs⟩,
                sentence_ := some Sentence.other,
                stats := (validateAndOptimize yieldEnv freshInstance).2.stats,
                calls := freshInstance.calls ++ (if Sentence.other = Sentence.explain true then [Call.describe] else []) ++
                  [Call.schedule] } ∧
            (match (yieldEnv.schedule freshInstance.ectx).2 with
              | ScheduleOutcome.value st =>
                if st.ok then onFinish yieldEnv q1 else some (onError yieldEnv st q1)
              | ScheduleOutcome.executionError st => some (onError yieldEnv st q1)
              | ScheduleOutcome.stdException what =>
                some (onError yieldEnv (Status.Error what) q1)) = some q2)) :=
  ⟨⟨rfl, rfl, rfl,
      execute_explain_or_schedule explainEnv freshInstance (Sentence.explain false)
        (PlanNode.mk "v") rfl rfl rfl⟩,
    ⟨rfl, rfl, rfl,
      execute_explain_or_schedule profileEnv freshInstance (Sentence.explain true)
        (PlanNode.mk "v") rfl rfl rfl⟩,
    ⟨rfl, rfl, rfl,
      execute_explain_or_schedule yieldEnv freshInstance Sentence.other
        (PlanNode.mk "v") rfl rfl rfl⟩⟩

/-! ## The response of `onFinish` and the error message -/

theorem lookup_moveValue (ectx : ExecutionContext) (name : String) (v : Value)
    (h : ectx.lookup name = some v) :
    (ectx.moveValue name).1 = v ∧ (ectx.moveValue name).2.lookup name = some Value.empty := by
  unfold ExecutionContext.moveValue
  rw [h]
  refine ⟨rfl, ?_⟩
  show List.lookup name (List.map _ ectx) = some Value.empty
  induction ectx with
  | nil => simp [List.lookup] at h
  | cons p rest ih =>
    obtain ⟨k, w⟩ := p
    show List.lookup name ((if k = name then (k, Value.empty) else (k, w)) ::
      List.map (fun p => if p.1 = name then (p.1, Value.empty) else p) rest) = some Value.empty
    by_cases hk : k = name
    · rw [if_pos hk, hk]
      simp [List.lookup]
    · rw [if_neg hk]
      have hb : (name == k) = false := by
        simpa using fun e : name = k => hk e.symm
      have hrest : List.lookup name rest = some v := by
        simpa [List.lookup, hb] using h
      simp only [List.lookup, hb]
      exact ih hrest

/-- C4, counterexample: with the root variable `v` absent from the variable store,
`onFinish` returns a response with `errorCode` still SUCCEEDED, no `errorMsg` and no data;
no internal-error response is emitted. -/
theorem onFinish_absent_variable_keeps_success :
    absentInstance.plan.root = some ⟨"v"⟩ ∧
    absentInstance.ectx.lookup "v" = none ∧
    ∃ q2, onFinish yieldEnv absentInstance = some q2 ∧
      q2.resp.data = none ∧
      q2.resp.errorCode = ErrorCode.SUCCEEDED ∧
      q2.resp.errorCode ≠ ErrorCode.E_EXECUTION_ERROR ∧
      q2.resp.errorMsg = none := by
  refine ⟨rfl, rfl, _, rfl, ?_, ?_, ?_, ?_⟩ <;> decide

/-- C4, amended: `onFinish` returns, and fills the response from the output variable of the
plan root.  When the variable holds a dataset with a non-empty column-name list, `resp.data`
becomes that dataset, the variable is left as a tombstone, and `errorCode` and `errorMsg`
are unchanged.  When it holds a dataset with an empty column-name list, `resp.data` is
unchanged, `errorCode` is E_EXECUTION_ERROR and `errorMsg` is the internal-error text.  When
the variable is absent or holds a value that is not a dataset, `resp.data`, `errorCode` and
`errorMsg` are unchanged. -/
theorem onFinish_fills_response (env : Env) (q : QueryInstance) (root : PlanNode)
    (h : q.plan.root = some root) :
    ∃ q2, onFinish env q = some q2 ∧
      (match q.ectx.lookup root.outputVar with
        | some (Value.dataSet ds) =>
          if ds.colNames = [] then
            q2.resp.data = q.resp.data ∧
            q2.resp.errorCode = ErrorCode.E_EXECUTION_ERROR ∧
            q2.resp.errorMsg = some "Internal error: empty column name list"
          else
            q2.resp.data = some ds ∧
            q2.ectx.lookup root.outputVar = some Value.empty ∧
            q2.resp.errorCode = q.resp.errorCode ∧
            q2.resp.errorMsg = q.resp.errorMsg
        | _ =>
          q2.resp.data = q.resp.data ∧
          q2.resp.errorCode = q.resp.errorCode ∧
          q2.resp.errorMsg = q.resp.errorMsg) := by
  rw [onFinish_eq]
  unfold fillRespData
  simp only [h]
  cases hl : q.ectx.lookup root.outputVar with
  | none => simp [ExecutionContext.exist, hl]
  | some v =>
    obtain ⟨hm1, hm2⟩ := lookup_moveValue q.ectx root.outputVar v hl
    have hex : ExecutionContext.exist q.ectx root.outputVar = true := by
      simp [ExecutionContext.exist, hl]
    cases v with
    | dataSet ds =>
      by_cases hc : ds.colNames = []
      · simp [hex, hm1, hc]
      · simp [hex, hm1, hm2, hc]
    | empty => simp [hex, hm1]
    | int i => simp [hex, hm1]
    | str t => simp [hex, hm1]

/-- Witness of C4 on the instance of `yieldEnv` whose scheduler has completed: the root
variable holds the dataset with the column `a`. -/
theorem onFinish_fills_response_witness :
    scheduledInstance.plan.root = some ⟨"v"⟩ ∧
    ∃ q2, onFinish yieldEnv scheduledInstance = some q2 ∧
      (match scheduledInstance.ectx.lookup (PlanNode.mk "v").outputVar with
        | some (Value.dataSet ds) =>
          if ds.colNames = [] then
            q2.resp.data = scheduledInstance.resp.data ∧
            q2.resp.errorCode = ErrorCode.E_EXECUTION_ERROR ∧
            q2.resp.errorMsg = some "Internal error: empty column name list"
          else
            q2.resp.data = some ds ∧
            q2.ectx.lookup (PlanNode.mk "v").outputVar = some Value.empty ∧
            q2.resp.errorCode = scheduledInstance.resp.errorCode ∧
            q2.resp.errorMsg = scheduledInstance.resp.errorMsg
        | _ =>
          q2.resp.data = scheduledInstance.resp.data ∧
          q2.resp.errorCode = scheduledInstance.resp.errorCode ∧
          q2.resp.errorMsg = scheduledInstance.resp.errorMsg) :=
  ⟨rfl, onFinish_fills_response yieldEnv scheduledInstance ⟨"v"⟩ rfl⟩

/-- C10, evaluated on the query `yieldEnv` (space-level metrics on, space `s`, optimizer time
250 microseconds): the unlabeled `optimizer_latency_us` histogram receives 250, the one
labeled with the space receives 1, the value of a call of `addValue` that passes none. -/
theorem validateAndOptimize_labeled_optimizer_latency :
    (validateAndOptimize yieldEnv freshInstance).1 = Status.OK ∧
    recordedValues Metric.kOptimizerLatencyUs.id
      (validateAndOptimize yieldEnv freshInstance).2.stats = [250] ∧
    recordedValues (StatsManager.histoWithLabels Metric.kOptimizerLatencyUs "s")
      (validateAndOptimize yieldEnv freshInstance).2.stats = [1] := by
  refine ⟨?_, ?_, ?_⟩ <;> decide

end QueryInstance

namespace DropSpaceProcessor

/-- C7, evaluated on `storeWithListener`: the space `s` exists with id 1, every scan
succeeds, the store holds a key under `listenerPrefix(1)`, and the keys handed to
`doSyncMultiRemoveAndUpdate` do not contain it; the role key is collected twice, as the
scan of step 4 is issued with the role range. -/
theorem process_leaves_listener_key :
    (tableKeys.listenerPrefix 1).isPrefixOf listenerKey = true ∧
    listenerKey ∈ storeWithListener.data.map Prod.fst ∧
    ∃ deleteKeys : List Bytes,
      process tableKeys storeWithListener ⟨"s", false⟩ =
        DropSpaceResult.multiRemove deleteKeys ∧
      listenerKey ∉ deleteKeys ∧ deleteKeys.count roleKey = 2 := by
  refine ⟨by decide, by decide, _, rfl, by decide, by decide⟩

end DropSpaceProcessor

end nebula
